import Mathlib

/-!
Verification of the SpargeAttn build-configuration logic (`setup.py`) and the
Windows environment shim (`spas_sage_attn/win_compat.py`).

The Python code is shallowly embedded: strings are manipulated through their
character lists, the filesystem is an explicit list of entries, the process
environment is a partial map, and fallible code returns `Except`.
-/

namespace SpargeAttn

/-! ## Python string primitives, embedded on character lists -/

/-- The ASCII whitespace characters recognised by Python `str.split()`. -/
def pyIsSpace (c : Char) : Bool :=
  c = ' ' || c = '\t' || c = '\n' || c = '\x0d' || c = '\x0b' || c = '\x0c'

/-- Helper for `pySplitOnChar`: accumulates the current piece (reversed). -/
def pySplitOnCharAux (sep : Char) : List Char → List Char → List (List Char)
  | [], acc => [acc.reverse]
  | c :: cs, acc =>
    if c = sep then acc.reverse :: pySplitOnCharAux sep cs []
    else pySplitOnCharAux sep cs (c :: acc)

/-- Python `s.split(sep)` for a single-character separator: keeps empty pieces. -/
def pySplitOnChar (sep : Char) (cs : List Char) : List (List Char) :=
  pySplitOnCharAux sep cs []

/-- Helper for `pySplitWs`: accumulates the current field (reversed). -/
def pySplitWsAux : List Char → List Char → List (List Char)
  | [], acc => if acc.isEmpty then [] else [acc.reverse]
  | c :: cs, acc =>
    if pyIsSpace c then
      if acc.isEmpty then pySplitWsAux cs []
      else acc.reverse :: pySplitWsAux cs []
    else pySplitWsAux cs (c :: acc)

/-- Python `s.split()` with no argument: split on whitespace runs, dropping
empty fields. -/
def pySplitWs (cs : List Char) : List (List Char) :=
  pySplitWsAux cs []

/-- Python `s.replace(" ", ";")`: both pattern and replacement are single
characters, so it is a character map. -/
def replaceChar (a b : Char) (cs : List Char) : List Char :=
  cs.map (fun c => if c = a then b else c)

/-- Python `s.replace(".", "")`: removes every occurrence of the character. -/
def removeChar (a : Char) (cs : List Char) : List Char :=
  cs.filter (fun c => c ≠ a)

/-! ## Architecture flag resolution (`get_arch_flags` in `setup.py`) -/

/-- The fixed support matrix `SUPPORTED_ARCHS` from `setup.py`. -/
def SUPPORTED_ARCHS : List String := ["8.0", "8.6", "8.9", "9.0"]

/-- The compact numeric code for an architecture token: `arch.replace(".", "")`. -/
def archNum (arch : String) : String :=
  (removeChar '.' arch.toList).asString

/-- The `-gencode` flag pair emitted for one supported architecture token. -/
def gencodePair (arch : String) : List String :=
  ["-gencode", "arch=compute_" ++ archNum arch ++ ",code=sm_" ++ archNum arch]

/-- The loop body of `get_arch_flags`: walks the token list in order; empty
tokens are skipped, supported tokens emit their flag pair, unsupported tokens
are recorded as warnings (the Python code prints them). Returns
(flags, warned tokens). -/
def resolveArchTokens : List String → List String × List String
  | [] => ([], [])
  | arch :: rest =>
    let r := resolveArchTokens rest
    if arch = "" then r
    else if arch ∈ SUPPORTED_ARCHS then (gencodePair arch ++ r.1, r.2)
    else (r.1, arch :: r.2)

/-- `get_arch_flags` from `setup.py`, with the `TORCH_CUDA_ARCH_LIST`
environment value passed explicitly (`os.environ.get(..., "")` makes absence
the empty string). The value has spaces replaced by `;` and is split on `;`. -/
def get_arch_flags (archList : Option String) : List String × List String :=
  resolveArchTokens
    (((pySplitOnChar ';' (replaceChar ' ' ';' (archList.getD "").toList))).map
      List.asString)

/-! ## Toolchain version parsing and validation (`validate_cuda_installation`) -/

/-- Parse a nonempty all-digit character list as a `Nat` (one dotted component
of a release version). -/
def parseNatDigits (cs : List Char) : Option Nat :=
  if cs.isEmpty then none
  else if cs.all Char.isDigit then
    some (cs.foldl (fun n c => n * 10 + (c.toNat - 48)) 0)
  else none

/-- `packaging.version.parse` restricted to plain release versions
(`"12"`, `"12.0"`, `"12.4.131"`): the dotted components as a list of `Nat`.
Strings with epochs, pre/post/dev segments or stray characters parse to
`none` (the library would raise or order them differently; `nvcc` banners
only carry plain releases). -/
def parseRelease (s : String) : Option (List Nat) :=
  (pySplitOnChar '.' s.toList).mapM parseNatDigits

/-- Comparison of release versions as `packaging` orders them: componentwise,
with the shorter tuple padded with zeros. -/
def releaseLt : List Nat → List Nat → Bool
  | [], ys => ys.any (fun y => decide (0 < y))
  | x :: xs, [] => if 0 < x then false else releaseLt xs []
  | x :: xs, y :: ys => if x < y then true else if y < x then false else releaseLt xs ys

/-- `MIN_CUDA_VERSION = Version("12.0")` from `setup.py`. -/
def MIN_CUDA_VERSION : List Nat := [12, 0]

/-- The version-token extraction inside `validate_cuda_installation`:
`nvcc_version.split()[-2].split(",")[0]`. Python raises `IndexError` when the
output has fewer than two whitespace-separated fields, modelled as `none`. -/
def extractVersionToken (out : List Char) : Option (List Char) :=
  let fields := pySplitWs out
  if fields.length ≥ 2 then
    some ((pySplitOnChar ',' (fields.getD (fields.length - 2) [])).headD [])
  else none

/-- `validate_cuda_installation` from `setup.py`. Inputs: `CUDA_HOME` (possibly
unset), the filesystem existence test used for `Path(CUDA_HOME)/"bin"/"nvcc"`,
and the text printed by `nvcc --version`. `RuntimeError` becomes
`Except.error`; failures of the token extraction or of version parsing
(`IndexError` / `InvalidVersion`) are also errors, with distinct messages. -/
def validate_cuda_installation (cuda_home : Option String)
    (pathExists : String → Bool) (nvccOut : String) : Except String Unit :=
  match cuda_home with
  | none => .error ("CUDA_HOME not found. CUDA 12.0+ required")
  | some home =>
    if !pathExists (home ++ "/bin/nvcc") then
      .error ("nvcc not found at " ++ home ++ "/bin/nvcc")
    else
      match extractVersionToken nvccOut.toList with
      | none => .error ("IndexError: version banner has fewer than two fields")
      | some tok =>
        match parseRelease tok.asString with
        | none => .error ("InvalidVersion: " ++ tok.asString)
        | some v =>
          if releaseLt v MIN_CUDA_VERSION then
            .error ("Requires CUDA 12.0+, found " ++ tok.asString)
          else .ok ()

/-! ## Filesystem model and source discovery (`collect_sources`) -/

/-- One filesystem entry: a path as a list of components, and whether it is a
regular file (directories and symlinks-to-directories have `isFile = false`,
matching `Path.is_file`). -/
structure FSEntry where
  path : List String
  isFile : Bool
deriving DecidableEq, Repr

/-- A filesystem state: the entries, in the traversal order the directory scan
observes them (discovery order is filesystem-dependent). -/
def FileSystem := List FSEntry

/-- `p` lies strictly below the directory `root` (at least one component
deeper), so `root.rglob` can yield it. A nonexistent root is simply a root no
entry lies under. -/
def strictlyUnder : List String → List String → Bool
  | [], [] => false
  | [], _ :: _ => true
  | _ :: _, [] => false
  | r :: rs, p :: ps => r == p && strictlyUnder rs ps

/-- The final path component (`Path.name`). -/
def pathName (p : List String) : String := p.getLastD ""

/-- Python `str.endswith` (also the glob `*.cu` name test), computed on the
character list. -/
def strEndsWith (s suf : String) : Bool :=
  List.isPrefixOf suf.toList.reverse s.toList.reverse

/-- Python `str.startswith`, computed on the character list. -/
def strStartsWith (s pre : String) : Bool :=
  List.isPrefixOf pre.toList s.toList

/-- `base_path.rglob("*.cu")`: every entry strictly under the root whose name
matches the glob `*.cu` (i.e. ends in `.cu`), in traversal order. -/
def rglobCu (fs : List FSEntry) (root : List String) : List FSEntry :=
  fs.filter (fun e => strictlyUnder root e.path && strEndsWith (pathName e.path) (".cu"))

/-- `collect_sources` from `setup.py`: for each root in order, the `rglob`
matches that are regular files and whose name does not start with `.`,
appended root by root. -/
def collect_sources (fs : List FSEntry) (src_dirs : List (List String)) : List (List String) :=
  src_dirs.flatMap (fun root =>
    ((rglobCu fs root).filter
      (fun e => e.isFile && !strStartsWith (pathName e.path) ("."))).map (·.path))

/-! ## Extension target assembly (`extensions` in `setup.py`) -/

/-- `PROJECT_NAME` from `setup.py`. -/
def PROJECT_NAME : String := "spas_sage_attn"

/-- One assembled extension target: name, source list, and the two compiler
argument lists of `extra_compile_args` (host `cxx`, device `nvcc`). -/
structure ExtTarget where
  name : String
  sources : List (List String)
  cxx_args : List String
  nvcc_args : List String
deriving DecidableEq, Repr

/-- The `_qattn` source list: the explicit `csrc/qattn/pybind.cpp` entry point
followed by discovery over `csrc/qattn` and the two instantiation
subdirectories. -/
def qattn_sources (fs : List FSEntry) : List (List String) :=
  ["csrc", "qattn", "pybind.cpp"] ::
    collect_sources fs
      [["csrc", "qattn"],
       ["csrc", "qattn", "instantiations_sm80"],
       ["csrc", "qattn", "instantiations_sm89"]]

/-- The `_fused` source list: discovery over `csrc/fused`. -/
def fused_sources (fs : List FSEntry) : List (List String) :=
  collect_sources fs [["csrc", "fused"]]

/-- The `extensions` list from `setup.py`: the two `CUDAExtension` targets,
each with freshly built argument lists (`get_arch_flags` is called once per
target). -/
def extensions (fs : List FSEntry) (archList : Option String) : List ExtTarget :=
  [{ name := PROJECT_NAME ++ "._qattn",
     sources := qattn_sources fs,
     cxx_args := ["-O3", "-fopenmp", "-std=c++17"],
     nvcc_args := ["-O3", "-std=c++17", "--use_fast_math", "--threads=8"] ++
       (get_arch_flags archList).1 },
   { name := PROJECT_NAME ++ "._fused",
     sources := fused_sources fs,
     cxx_args := ["-O3", "-fopenmp", "-std=c++17"],
     nvcc_args := ["-O3", "-std=c++17", "--use_fast_math"] ++
       (get_arch_flags archList).1 }]

/-- Append extra device-compiler arguments to the `i`-th target only, the pure
rendering of `ext.extra_compile_args["nvcc"].extend(...)` on one list element. -/
def appendNvcc : List ExtTarget → Nat → List String → List ExtTarget
  | [], _, _ => []
  | e :: es, 0, extra => { e with nvcc_args := e.nvcc_args ++ extra } :: es
  | e :: es, i + 1, extra => e :: appendNvcc es i extra

/-! ## Platform override and build-graph emission -/

/-- The two device-compiler arguments appended on Windows. -/
def winNvccExtra : List String := ["-Xcompiler=/MD", "-Xcompiler=/wd4819"]

/-- The platform-conditional block of `setup.py`: on `win32` every target's
`nvcc` list is extended with the runtime-library and diagnostic-suppression
flags and the Windows triton extra is used; on every other platform the
targets are untouched and the default extra is used. Returns the (possibly
updated) targets and the `extras` mapping. -/
def applyPlatformOverride (platform : String) (exts : List ExtTarget) :
    List ExtTarget × List (String × List String) :=
  if platform = "win32" then
    (exts.map (fun e => { e with nvcc_args := e.nvcc_args ++ winNvccExtra }),
     [("triton", ["triton-windows>=3.3.1"])])
  else
    (exts, [("triton", ["triton>=3.2.0"])])

/-- The arguments handed to `setup(...)` that the claims mention. -/
structure SetupResult where
  ext_modules : List ExtTarget
  extras_require : List (String × List String)
  long_description : String
deriving Repr

/-- The ambient state one run of `setup.py` reads. `fileContents` models both
`Path.exists` probes and `open(...).read()`: `none` means the path does not
exist. -/
structure BuildEnv where
  cuda_home : Option String
  fileContents : String → Option String
  nvccOut : String
  fs : List FSEntry
  archList : Option String
  platform : String

/-- The module-level flow of `setup.py`: validate the toolchain, assemble the
two targets, apply the platform override, then evaluate the `setup(...)`
arguments — `open("README.md").read()` raises `FileNotFoundError` (naming the
path) when the file is absent, so `setup` is never entered and no build graph
reaches the driver. -/
def runSetupScript (env : BuildEnv) : Except String SetupResult := do
  validate_cuda_installation env.cuda_home
    (fun p => (env.fileContents p).isSome) env.nvccOut
  let exts := extensions env.fs env.archList
  let (exts2, extras) := applyPlatformOverride env.platform exts
  match env.fileContents ("README.md") with
  | none => .error ("FileNotFoundError: No such file or directory: README.md")
  | some txt =>
    .ok { ext_modules := exts2, extras_require := extras, long_description := txt }

/-! ## The Windows shim (`spas_sage_attn/win_compat.py`) -/

/-- The process environment: a partial map from variable names to values. -/
def Env := String → Option String

/-- Point update of the environment. -/
def envSet (env : Env) (k v : String) : Env :=
  fun x => if x = k then some v else env x

/-- `os.path.expandvars(r"%LOCALAPPDATA%\triton_cache")` under `ntpath`: the
`%LOCALAPPDATA%` reference is substituted when the variable is set and left
verbatim otherwise. -/
def expandLocalAppData (env : Env) : String :=
  match env ("LOCALAPPDATA") with
  | some v => v ++ "\\triton_cache"
  | none => "%LOCALAPPDATA%\\triton_cache"

/-- `configure_for_windows` from `win_compat.py`. On a non-Windows platform
the body is skipped and the environment is returned untouched (the Python
function returns `None` either way). On Windows it first sets
`TRITON_CACHE_DIR`, then appends `;%CUDA_PATH%\bin` to `PATH`; a missing
`CUDA_PATH` or `PATH` raises `KeyError` (after `TRITON_CACHE_DIR` was already
set, hence the environment carried by the error). -/
def configure_for_windows (platform : String) (env : Env) : Except (String × Env) Env :=
  if platform = "Windows" then
    let env1 := envSet env ("TRITON_CACHE_DIR") (expandLocalAppData env)
    match env1 ("CUDA_PATH") with
    | none => .error ("KeyError: CUDA_PATH", env1)
    | some cp =>
      match env1 ("PATH") with
      | none => .error ("KeyError: PATH", env1)
      | some p => .ok (envSet env1 ("PATH") (p ++ ";" ++ cp ++ "\\bin"))
  else .ok env

/-- Modelled from the spec for comparison with `get_arch_flags` (claim C5):
the spec says flag resolution "collapses whitespace to the list-separator";
this variant maps every Python whitespace character to `;` before splitting,
where the code's `replace(" ", ";")` only maps the space character. -/
def get_arch_flags_specWhitespace (archList : Option String) : List String × List String :=
  resolveArchTokens
    (((pySplitOnChar ';'
        ((archList.getD "").toList.map (fun c => if pyIsSpace c then ';' else c)))).map
      List.asString)

/-- Join fields with a single separator character (used to quantify over
version-banner layouts in the claims about token extraction). -/
def joinSep (sep : Char) : List (List Char) → List Char
  | [] => []
  | [f] => f
  | f :: g :: rest => f ++ sep :: joinSep sep (g :: rest)

/-- The example directory tree the spec uses for source discovery: `a.cu`,
`.hidden.cu`, a subdirectory `sub` with `b.cu`, and `notes.txt`, all under a
root `d`. -/
def exampleTree : List FSEntry :=
  [⟨["d", "a.cu"], true⟩, ⟨["d", ".hidden.cu"], true⟩, ⟨["d", "sub"], false⟩,
   ⟨["d", "sub", "b.cu"], true⟩, ⟨["d", "notes.txt"], true⟩]

/-- A concrete build environment for evaluating the pipeline: a valid CUDA
12.4 toolchain, the example source tree, and no `README.md`. -/
def demoBuildEnv : BuildEnv :=
  { cuda_home := some "/usr/local/cuda",
    fileContents := fun p => if p = "/usr/local/cuda/bin/nvcc" then some "" else none,
    nvccOut := "Cuda compilation tools, release 12.4, V12.4.131",
    fs := exampleTree, archList := some "8.0", platform := "linux" }

/-- A concrete Windows process environment with `CUDA_PATH` and `PATH` set. -/
def winDemoEnv : Env := fun k =>
  if k = "CUDA_PATH" then some "C:CUDA"
  else if k = "PATH" then some "C:W" else none

/-! ## Theorems -/

/-- Claim C1: every supported token in the input list yields exactly one
`("-gencode", "arch=compute_<code>,code=sm_<code>")` pair with the dot
stripped from the identifier, every unsupported token is dropped with a
warning naming it, pairs appear in input order and repeats are kept (the
flag list is the order-preserving `flatMap` of per-token emissions); on
`"8.0;8.6;9.9"` the flags are those of `8.0` and `8.6` with a warning for
`9.9`. -/
theorem resolveArchTokens_characterization :
    (∀ ts : List String,
      resolveArchTokens ts =
        (ts.flatMap (fun t => if t ∈ SUPPORTED_ARCHS then gencodePair t else []),
         ts.filter (fun t => !(t == "") && !(SUPPORTED_ARCHS.contains t)))) ∧
    get_arch_flags (some "8.0;8.6;9.9") =
      (["-gencode", "arch=compute_80,code=sm_80",
        "-gencode", "arch=compute_86,code=sm_86"], ["9.9"]) := by
  constructor
  · intro ts
    induction ts with
    | nil => rfl
    | cons a rest ih =>
      simp only [resolveArchTokens, ih, List.flatMap_cons, List.filter_cons]
      by_cases h1 : a = ""
      · subst h1
        simp [SUPPORTED_ARCHS]
      · by_cases h2 : a ∈ SUPPORTED_ARCHS
        · simp [h1, h2]
        · simp [h1, h2]
  · decide

/-- Claim C5, counterexample: the code's separator normalisation only maps
the space character to `;` (`replace(" ", ";")`), not every whitespace
character; on the tab-separated value `"8.0\t8.6"` the code keeps one
unsupported token `"8.0\t8.6"` (warning, no flags), while the spec's
collapse-whitespace reading would emit the flag pairs of both
architectures. -/
theorem arch_list_tab_not_collapsed :
    get_arch_flags (some "8.0\t8.6") = ([], ["8.0\t8.6"]) ∧
    get_arch_flags_specWhitespace (some "8.0\t8.6") =
      (["-gencode", "arch=compute_80,code=sm_80",
        "-gencode", "arch=compute_86,code=sm_86"], []) ∧
    get_arch_flags (some "8.0\t8.6") ≠ get_arch_flags_specWhitespace (some "8.0\t8.6") := by
  refine ⟨by decide, by decide, by decide⟩

/-- Claim C5 as amended: a space character (the only whitespace the code
normalises) is interchangeable with the `;` separator, empty tokens are
discarded before membership checking, an absent `TORCH_CUDA_ARCH_LIST` is
treated as the empty string, and the empty string resolves to no flags and
no warnings. -/
theorem arch_list_separator_spec :
    (∀ a b : List Char,
      get_arch_flags (some (a ++ ' ' :: b).asString) =
        get_arch_flags (some (a ++ ';' :: b).asString)) ∧
    (∀ ts : List String,
      resolveArchTokens ts = resolveArchTokens (ts.filter (fun t => !(t == "")))) ∧
    get_arch_flags none = get_arch_flags (some "") ∧
    get_arch_flags (some "") = ([], []) := by
  refine ⟨?_, ?_, rfl, rfl⟩
  · intro a b
    simp [get_arch_flags, replaceChar, List.asString]
  · intro ts
    induction ts with
    | nil => rfl
    | cons a rest ih =>
      by_cases h1 : a = ""
      · subst h1
        simpa [resolveArchTokens, List.filter_cons] using ih
      · simp [resolveArchTokens, List.filter_cons, h1, ih]

/-- Claim C2: validation succeeds exactly when `CUDA_HOME` is set, `bin/nvcc`
exists under it, and the parsed toolchain version is not strictly below
`MIN_CUDA_VERSION` (12.0); equivalently it raises exactly when the root is
unknown, the compiler is missing, or the version is below the minimum. The
hypotheses fix the version the banner parses to. -/
theorem validate_cuda_installation_ok_iff (cuda_home : Option String)
    (pathExists : String → Bool) (nvccOut : String) (tok : List Char) (v : List Nat)
    (htok : extractVersionToken nvccOut.toList = some tok)
    (hparse : parseRelease tok.asString = some v) :
    validate_cuda_installation cuda_home pathExists nvccOut = .ok () ↔
      ((∃ home, cuda_home = some home ∧ pathExists (home ++ "/bin/nvcc") = true) ∧
        releaseLt v MIN_CUDA_VERSION = false) := by
  have htok2 : extractVersionToken nvccOut.data = some tok := htok
  cases cuda_home with
  | none => simp [validate_cuda_installation]
  | some home =>
    cases hex : pathExists (home ++ "/bin/nvcc") with
    | false => simp [validate_cuda_installation, hex]
    | true =>
      cases hlt : releaseLt v MIN_CUDA_VERSION with
      | false => simp [validate_cuda_installation, hex, htok2, hparse, hlt]
      | true => simp [validate_cuda_installation, hex, htok2, hparse, hlt]

/-- Claim C2 witness: the boundary version exactly equal to 12.0 passes
validation. -/
theorem validate_cuda_installation_boundary :
    validate_cuda_installation (some "/usr/local/cuda") (fun _ => true)
      "Cuda compilation tools, release 12.0, V12.0.140" = .ok () :=
  (validate_cuda_installation_ok_iff (some "/usr/local/cuda") (fun _ => true)
    "Cuda compilation tools, release 12.0, V12.0.140"
    ("12.0").toList [12, 0] (by decide) (by decide)).mpr
    ⟨⟨"/usr/local/cuda", rfl, rfl⟩, by decide⟩

/-- Membership in `collect_sources`: a path is collected exactly when some
root of the list has it strictly underneath, its entry is a regular file,
its name matches `*.cu`, and its name is not hidden. -/
theorem mem_collect_sources {fs : List FSEntry} {roots : List (List String)}
    {p : List String} :
    p ∈ collect_sources fs roots ↔
      ∃ r ∈ roots, ∃ e ∈ fs, e.path = p ∧ strictlyUnder r p = true ∧
        strEndsWith (pathName p) (".cu") = true ∧ e.isFile = true ∧
        strStartsWith (pathName p) (".") = false := by
  simp only [collect_sources, rglobCu, List.mem_flatMap, List.mem_map,
    List.mem_filter, Bool.and_eq_true, Bool.not_eq_true']
  constructor
  · rintro ⟨r, hr, e, ⟨⟨he, hu, hcu⟩, hf, hh⟩, rfl⟩
    exact ⟨r, hr, e, he, rfl, hu, hcu, hf, hh⟩
  · rintro ⟨r, hr, e, he, rfl, hu, hcu, hf, hh⟩
    exact ⟨r, hr, e, ⟨⟨he, hu, hcu⟩, hf, hh⟩, rfl⟩

/-- Claim C3: discovery concatenates root by root; a path is returned exactly
when it is a regular `*.cu` file strictly under one of the roots whose name
is not hidden; a root nothing lies under (in particular a nonexistent root)
contributes nothing; and on the spec's example tree the result is exactly
`a.cu` and `sub/b.cu`. -/
theorem collect_sources_spec :
    (∀ (fs : List FSEntry) (r : List String) (roots : List (List String)),
      collect_sources fs (r :: roots) =
        collect_sources fs [r] ++ collect_sources fs roots) ∧
    (∀ (fs : List FSEntry) (roots : List (List String)) (p : List String),
      p ∈ collect_sources fs roots ↔
        ∃ r ∈ roots, ∃ e ∈ fs, e.path = p ∧ strictlyUnder r p = true ∧
          strEndsWith (pathName p) (".cu") = true ∧ e.isFile = true ∧
          strStartsWith (pathName p) (".") = false) ∧
    (∀ (fs : List FSEntry) (root : List String),
      (∀ e ∈ fs, strictlyUnder root e.path = false) →
      collect_sources fs [root] = []) ∧
    collect_sources exampleTree [["d"]] = [["d", "a.cu"], ["d", "sub", "b.cu"]] := by
  refine ⟨?_, fun fs roots p => mem_collect_sources, ?_, by decide⟩
  · intro fs r roots
    simp [collect_sources]
  · intro fs root h
    simp only [collect_sources, List.flatMap_cons, List.flatMap_nil, List.append_nil,
      List.map_eq_nil_iff, rglobCu, List.filter_filter]
    rw [List.filter_eq_nil_iff]
    intro e he
    simp [h e he]

/-- Claim C3 witness: discovery over a root that exists nowhere in the
example tree yields the empty list. -/
theorem collect_sources_missing_root :
    collect_sources exampleTree [["nonexistent"]] = [] :=
  collect_sources_spec.2.2.1 exampleTree ["nonexistent"] (by decide)

/-- Splitting on whitespace walks through a whitespace-free block unchanged,
accumulating it. -/
theorem pySplitWsAux_append_nospace (f : List Char)
    (hns : ∀ c ∈ f, pyIsSpace c = false) :
    ∀ (rest acc : List Char),
      pySplitWsAux (f ++ rest) acc = pySplitWsAux rest (f.reverse ++ acc) := by
  induction f with
  | nil => intro rest acc; simp
  | cons c cs ih =>
    intro rest acc
    have hc : pyIsSpace c = false := hns c (List.mem_cons_self c cs)
    have hcs : ∀ x ∈ cs, pyIsSpace x = false := fun x hx => hns x (List.mem_cons_of_mem c hx)
    simp only [List.cons_append, pySplitWsAux, hc, Bool.false_eq_true, if_false, List.append_eq]
    rw [ih hcs rest (c :: acc)]
    simp

/-- Python `split()` recovers the fields from a single-space join of
nonempty, whitespace-free fields. -/
theorem pySplitWs_joinSep (fields : List (List Char))
    (hf : ∀ f ∈ fields, f ≠ [] ∧ ∀ c ∈ f, pyIsSpace c = false) :
    pySplitWs (joinSep ' ' fields) = fields := by
  induction fields with
  | nil => rfl
  | cons f tail ih =>
    have hf0 := hf f (List.mem_cons_self f tail)
    have hrevne : f.reverse ≠ [] := by
      intro h; exact hf0.1 (by simpa using congrArg List.reverse h)
    cases tail with
    | nil =>
      show pySplitWsAux (joinSep ' ' [f]) [] = [f]
      rw [show joinSep ' ' [f] = f from rfl,
        show (f : List Char) = f ++ [] by simp,
        pySplitWsAux_append_nospace f hf0.2]
      simp [pySplitWsAux, List.isEmpty_iff, hrevne]
    | cons g rest =>
      have htail : ∀ x ∈ g :: rest, x ≠ [] ∧ ∀ c ∈ x, pyIsSpace c = false :=
        fun x hx => hf x (List.mem_cons_of_mem f hx)
      show pySplitWsAux (joinSep ' ' (f :: g :: rest)) [] = f :: g :: rest
      rw [show joinSep ' ' (f :: g :: rest) = f ++ ' ' :: joinSep ' ' (g :: rest) from rfl,
        pySplitWsAux_append_nospace f hf0.2]
      simp only [pySplitWsAux, show pyIsSpace ' ' = true from rfl, if_true,
        List.append_nil, List.isEmpty_iff, hrevne, if_false, List.reverse_reverse]
      exact congrArg (f :: ·) (ih htail)

/-- The first piece of a single-character split is everything before the
first occurrence of the separator (Python `s.split(sep)[0]`). -/
theorem pySplitOnCharAux_headD (sep : Char) :
    ∀ (cs acc : List Char),
      (pySplitOnCharAux sep cs acc).headD [] =
        acc.reverse ++ cs.takeWhile (fun c => c != sep) := by
  intro cs
  induction cs with
  | nil => intro acc; simp [pySplitOnCharAux]
  | cons c cs ih =>
    intro acc
    by_cases hc : c = sep
    · subst hc
      simp [pySplitOnCharAux, List.takeWhile_cons]
    · rw [show pySplitOnCharAux sep (c :: cs) acc = pySplitOnCharAux sep cs (c :: acc) by
        simp [pySplitOnCharAux, hc]]
      rw [ih (c :: acc)]
      simp [List.takeWhile_cons, hc]

/-- Claim C4: on a banner made of at least two whitespace-separated fields,
the version token validation compares is the second-to-last field with
everything from the first comma onward stripped; on the real `nvcc` banner
tail `"... release 12.4, V12.4.131"` it is `"12.4"`. -/
theorem extractVersionToken_spec :
    (∀ fields : List (List Char), 2 ≤ fields.length →
      (∀ f ∈ fields, f ≠ [] ∧ ∀ c ∈ f, pyIsSpace c = false) →
      extractVersionToken (joinSep ' ' fields) =
        some ((fields.getD (fields.length - 2) []).takeWhile (fun c => c != ','))) ∧
    extractVersionToken ("Cuda compilation tools, release 12.4, V12.4.131").toList =
      some ("12.4").toList := by
  constructor
  · intro fields h2 hf
    simp only [extractVersionToken, pySplitWs_joinSep fields hf, h2, if_true, ge_iff_le]
    rw [show pySplitOnChar ',' (fields.getD (fields.length - 2) []) =
      pySplitOnCharAux ',' (fields.getD (fields.length - 2) []) [] from rfl,
      pySplitOnCharAux_headD]
    simp
  · decide

/-- Claim C4 witness: a three-field banner whose middle field carries a
trailing comma segment. -/
theorem extractVersionToken_spec_instance :
    extractVersionToken (joinSep ' ' [['r'], ['1', '2', ',', 'x'], ['V', '9']]) =
      some ['1', '2'] := by
  rw [extractVersionToken_spec.1 [['r'], ['1', '2', ',', 'x'], ['V', '9']]
    (by decide) (by decide)]
  decide

/-- Claim C6: the platform conditional has exactly one alternate branch. On
`win32` it appends exactly `-Xcompiler=/MD` and `-Xcompiler=/wd4819` to the
end of every target's nvcc argument list — names, host-compiler arguments
and sources untouched — and selects the Windows triton extra; on every other
platform the targets are returned unchanged with the default extra. -/
theorem platform_override_spec :
    (∀ exts : List ExtTarget,
      (applyPlatformOverride "win32" exts).1.map (·.nvcc_args) =
        exts.map (fun e => e.nvcc_args ++ ["-Xcompiler=/MD", "-Xcompiler=/wd4819"]) ∧
      (applyPlatformOverride "win32" exts).1.map (·.name) = exts.map (·.name) ∧
      (applyPlatformOverride "win32" exts).1.map (·.cxx_args) = exts.map (·.cxx_args) ∧
      (applyPlatformOverride "win32" exts).1.map (·.sources) = exts.map (·.sources) ∧
      (applyPlatformOverride "win32" exts).2 = [("triton", ["triton-windows>=3.3.1"])]) ∧
    (∀ (platform : String) (exts : List ExtTarget), platform ≠ "win32" →
      applyPlatformOverride platform exts = (exts, [("triton", ["triton>=3.2.0"])])) := by
  constructor
  · intro exts
    refine ⟨?_, ?_, ?_, ?_, ?_⟩ <;> simp [applyPlatformOverride, winNvccExtra]
  · intro platform exts h
    simp [applyPlatformOverride, h]

/-- Claim C6 witness: on `linux` the assembled targets pass through the
override unchanged, with the default triton extra. -/
theorem platform_override_nonwin_instance :
    applyPlatformOverride "linux" (extensions exampleTree none) =
      (extensions exampleTree none, [("triton", ["triton>=3.2.0"])]) :=
  platform_override_spec.2 "linux" (extensions exampleTree none) (by decide)

/-- Unfolding one component of `strictlyUnder`. -/
theorem strictlyUnder_cons {r : String} {rs p : List String}
    (h : strictlyUnder (r :: rs) p = true) :
    ∃ ps, p = r :: ps ∧ strictlyUnder rs ps = true := by
  cases p with
  | nil => simp [strictlyUnder] at h
  | cons q qs =>
    simp only [strictlyUnder, Bool.and_eq_true, beq_iff_eq] at h
    exact ⟨qs, by rw [h.1], h.2⟩

/-- Every `_fused` source lies under `csrc/fused`. -/
theorem mem_fused_sources_second {fs : List FSEntry} {p : List String}
    (hp : p ∈ fused_sources fs) : p[1]? = some "fused" := by
  obtain ⟨r, hr, e, he, rfl, hu, _⟩ := mem_collect_sources.mp hp
  have hr' : r = ["csrc", "fused"] := by simpa using hr
  subst hr'
  obtain ⟨ps, hps, h2⟩ := strictlyUnder_cons hu
  obtain ⟨ps2, hps2, _⟩ := strictlyUnder_cons h2
  rw [hps, hps2]
  simp

/-- Every `_qattn` source lies under `csrc/qattn`. -/
theorem mem_qattn_sources_second {fs : List FSEntry} {p : List String}
    (hp : p ∈ qattn_sources fs) : p[1]? = some "qattn" := by
  rcases List.mem_cons.mp hp with rfl | hp2
  · simp
  · obtain ⟨r, hr, e, he, rfl, hu, _⟩ := mem_collect_sources.mp hp2
    have hex : ∃ rs, r = "csrc" :: "qattn" :: rs := by
      simp only [List.mem_cons, List.not_mem_nil, or_false] at hr
      rcases hr with rfl | rfl | rfl
      · exact ⟨[], rfl⟩
      · exact ⟨["instantiations_sm80"], rfl⟩
      · exact ⟨["instantiations_sm89"], rfl⟩
    obtain ⟨rs, rfl⟩ := hex
    obtain ⟨ps, hps, h2⟩ := strictlyUnder_cons hu
    obtain ⟨ps2, hps2, _⟩ := strictlyUnder_cons h2
    rw [hps, hps2]
    simp

/-- Claim C7: for every filesystem state the two targets' source lists are
disjoint (no `_qattn` source is a `_fused` source), and the argument lists
are independently mutable: extending the nvcc arguments of one target leaves
the other target's descriptor exactly as assembled, while the extended
target gains precisely the appended suffix. -/
theorem extension_targets_independent :
    (∀ fs : List FSEntry,
      (qattn_sources fs).filter (fun p => (fused_sources fs).contains p) = []) ∧
    (∀ (fs : List FSEntry) (archList : Option String) (extra : List String),
      ((appendNvcc (extensions fs archList) 0 extra)[1]? = (extensions fs archList)[1]? ∧
       (appendNvcc (extensions fs archList) 1 extra)[0]? = (extensions fs archList)[0]?) ∧
      (appendNvcc (extensions fs archList) 0 extra)[0]?.map (·.nvcc_args) =
        ((extensions fs archList)[0]?).map (fun e => e.nvcc_args ++ extra) ∧
      (appendNvcc (extensions fs archList) 1 extra)[1]?.map (·.nvcc_args) =
        ((extensions fs archList)[1]?).map (fun e => e.nvcc_args ++ extra)) := by
  constructor
  · intro fs
    rw [List.filter_eq_nil_iff]
    intro p hp hcon
    have h2 : p ∈ fused_sources fs := by simpa using hcon
    have hq := mem_qattn_sources_second hp
    have hf := mem_fused_sources_second h2
    rw [hq] at hf
    exact absurd (Option.some.inj hf) (by decide)
  · intro fs archList extra
    exact ⟨⟨rfl, rfl⟩, rfl, rfl⟩

/-- Claim C8: when `README.md` is missing (and validation got past the
toolchain checks), evaluating the `setup(...)` arguments aborts the run with
an error naming the missing path, and no `SetupResult` — no build graph — is
ever produced. -/
theorem readme_missing_aborts (env : BuildEnv)
    (hok : validate_cuda_installation env.cuda_home
      (fun p => (env.fileContents p).isSome) env.nvccOut = .ok ())
    (hmissing : env.fileContents ("README.md") = none) :
    runSetupScript env =
      .error ("FileNotFoundError: No such file or directory: README.md") ∧
    ∀ r, runSetupScript env ≠ .ok r := by
  have h1 : runSetupScript env =
      .error ("FileNotFoundError: No such file or directory: README.md") := by
    simp [runSetupScript, hok, hmissing]
    rfl
  exact ⟨h1, fun r hr => by rw [h1] at hr; cases hr⟩

/-- Claim C8 witness: the demo environment (valid toolchain, no `README.md`)
aborts with the `FileNotFoundError`. -/
theorem readme_missing_aborts_instance :
    runSetupScript demoBuildEnv =
      .error ("FileNotFoundError: No such file or directory: README.md") :=
  (readme_missing_aborts demoBuildEnv (by rfl) (by rfl)).1

/-- Dropping the last root component preserves `strictlyUnder`. -/
theorem strictlyUnder_append_right (rs : List String) (x : String) (p : List String)
    (h : strictlyUnder (rs ++ [x]) p = true) : strictlyUnder rs p = true := by
  induction rs generalizing p with
  | nil =>
    cases p with
    | nil => simp [strictlyUnder] at h
    | cons q qs => rfl
  | cons r rs ih =>
    cases p with
    | nil => simp [strictlyUnder] at h
    | cons q qs =>
      simp only [List.cons_append, strictlyUnder, Bool.and_eq_true] at h ⊢
      exact ⟨h.1, ih qs h.2⟩

/-- Claim C9: a visible `.cu` regular file under either instantiation
subdirectory is counted at least twice in the `_qattn` source list — once by
the recursive scan of the parent root `csrc/qattn` and once by the
subdirectory's own root, with no de-duplication. -/
theorem instantiation_sources_duplicated (fs : List FSEntry) (e : FSEntry)
    (he : e ∈ fs) (hfile : e.isFile = true)
    (hunder : strictlyUnder ["csrc", "qattn", "instantiations_sm80"] e.path = true ∨
      strictlyUnder ["csrc", "qattn", "instantiations_sm89"] e.path = true)
    (hcu : strEndsWith (pathName e.path) (".cu") = true)
    (hvis : strStartsWith (pathName e.path) (".") = false) :
    2 ≤ (qattn_sources fs).count e.path := by
  have hparent : strictlyUnder ["csrc", "qattn"] e.path = true := by
    rcases hunder with h | h
    · exact strictlyUnder_append_right ["csrc", "qattn"] "instantiations_sm80" e.path h
    · exact strictlyUnder_append_right ["csrc", "qattn"] "instantiations_sm89" e.path h
  have hmem : ∀ root : List String, strictlyUnder root e.path = true →
      e.path ∈ collect_sources fs [root] := fun root hr =>
    mem_collect_sources.mpr ⟨root, List.mem_singleton.mpr rfl, e, he, rfl, hr, hcu, hfile, hvis⟩
  have hsplit : qattn_sources fs =
      ["csrc", "qattn", "pybind.cpp"] ::
        (collect_sources fs [["csrc", "qattn"]] ++
         (collect_sources fs [["csrc", "qattn", "instantiations_sm80"]] ++
          collect_sources fs [["csrc", "qattn", "instantiations_sm89"]])) := by
    simp [qattn_sources, collect_sources]
  rw [hsplit, List.count_cons, List.count_append, List.count_append]
  have h1 : 0 < (collect_sources fs [["csrc", "qattn"]]).count e.path :=
    List.count_pos_iff.mpr (hmem _ hparent)
  have h2 : 0 < (collect_sources fs [["csrc", "qattn", "instantiations_sm80"]]).count e.path ∨
      0 < (collect_sources fs [["csrc", "qattn", "instantiations_sm89"]]).count e.path := by
    rcases hunder with h | h
    · exact Or.inl (List.count_pos_iff.mpr (hmem _ h))
    · exact Or.inr (List.count_pos_iff.mpr (hmem _ h))
  rcases h2 with h2 | h2 <;> omega

/-- Claim C9 witness: a single kernel file in `instantiations_sm80` shows up
twice in the `_qattn` sources. -/
theorem instantiation_sources_duplicated_instance :
    2 ≤ (qattn_sources [⟨["csrc", "qattn", "instantiations_sm80", "i.cu"], true⟩]).count
      ["csrc", "qattn", "instantiations_sm80", "i.cu"] :=
  instantiation_sources_duplicated _ ⟨["csrc", "qattn", "instantiations_sm80", "i.cu"], true⟩
    (List.mem_singleton.mpr rfl) rfl (Or.inl (by decide)) (by decide) (by decide)

/-- Claim C10: on every non-Windows platform the shim is the identity on the
process environment (in particular neither `TRITON_CACHE_DIR` nor `PATH`
changes) and the call just returns; on Windows (with `CUDA_PATH` and `PATH`
present) it sets `TRITON_CACHE_DIR` to the expanded cache path, appends
`;<CUDA_PATH>\bin` to `PATH`, and touches nothing else. -/
theorem configure_for_windows_spec :
    (∀ (platform : String) (env : Env), platform ≠ "Windows" →
      configure_for_windows platform env = .ok env) ∧
    (∀ (env : Env) (cp pa : String),
      env ("CUDA_PATH") = some cp → env ("PATH") = some pa →
      ∃ env2, configure_for_windows "Windows" env = .ok env2 ∧
        env2 ("TRITON_CACHE_DIR") = some (expandLocalAppData env) ∧
        env2 ("PATH") = some (pa ++ ";" ++ cp ++ "\\bin") ∧
        ∀ k, k ≠ "TRITON_CACHE_DIR" → k ≠ "PATH" → env2 k = env k) := by
  constructor
  · intro platform env h
    simp [configure_for_windows, h]
  · intro env cp pa hcp hpa
    have hcp1 : envSet env ("TRITON_CACHE_DIR") (expandLocalAppData env) ("CUDA_PATH") =
        some cp := by simp [envSet, hcp]
    have hpa1 : envSet env ("TRITON_CACHE_DIR") (expandLocalAppData env) ("PATH") =
        some pa := by simp [envSet, hpa]
    refine ⟨envSet (envSet env ("TRITON_CACHE_DIR") (expandLocalAppData env)) ("PATH")
        (pa ++ ";" ++ cp ++ "\\bin"), ?_, ?_, ?_, ?_⟩
    · simp only [configure_for_windows, if_pos rfl, hcp1, hpa1]
      simp
    · simp [envSet]
    · simp [envSet]
    · intro k hk1 hk2
      simp [envSet, hk1, hk2]

/-- Claim C10 witness: a Linux call returns the environment untouched, and a
Windows call on an environment carrying `CUDA_PATH` and `PATH` succeeds. -/
theorem configure_for_windows_instance :
    configure_for_windows "Linux" winDemoEnv = .ok winDemoEnv ∧
    (configure_for_windows "Windows" winDemoEnv).isOk = true := by
  refine ⟨configure_for_windows_spec.1 "Linux" winDemoEnv (by decide), ?_⟩
  obtain ⟨env2, h, _⟩ := configure_for_windows_spec.2 winDemoEnv "C:CUDA" "C:W" rfl rfl
  rw [h]
  rfl

end SpargeAttn
